import Mathlib

/-!
Shallow embedding of the tg-msg-router Telegram bot (src/bot.py) and proofs
about its rule engine, authorization gate, command handlers, dispatcher and
log retention.  Python string primitives are modelled as structurally
recursive functions on the underlying character lists, so that every
definition evaluates inside the kernel.
-/

set_option maxRecDepth 10000

namespace TgMsgRouter

/-- Models Python str.lower character-wise.  Char.toLower lowers exactly the
ASCII range A-Z, which mirrors CPython for the ASCII handles and keywords this
repository works with. -/
def pyLower (s : String) : String :=
  String.mk (s.data.map Char.toLower)

/-- Models Python s.startswith(p): p is a prefix of s. -/
def pyStartsWith (s p : String) : Bool :=
  p.data.isPrefixOf s.data

/-- Substring test on character lists; models the Python expression
needle in haystack, including the fact that the empty needle matches. -/
def listContainsSub (needle : List Char) : List Char → Bool
  | [] => needle.isEmpty
  | c :: rest => needle.isPrefixOf (c :: rest) || listContainsSub needle rest

/-- Models the Python membership test needle in haystack on strings. -/
def pyContains (haystack needle : String) : Bool :=
  listContainsSub needle.data haystack.data

/-- Splits a character list at every occurrence of sep; models Python
str.split(sep) for a one-character separator. -/
def splitOnChar (sep : Char) : List Char → List (List Char)
  | [] => [[]]
  | c :: rest =>
    match splitOnChar sep rest with
    | [] => [[c]]
    | h :: t => if c = sep then [] :: h :: t else (c :: h) :: t

/-- Models Python s.split(sep) for a one-character separator. -/
def pySplit (sep : Char) (s : String) : List String :=
  (splitOnChar sep s.data).map String.mk

/-- Models Python str.strip(): drop whitespace from both ends. -/
def pyStrip (s : String) : String :=
  String.mk (((s.data.dropWhile Char.isWhitespace).reverse.dropWhile
    Char.isWhitespace).reverse)

/-- Models Python str.join for a separator string. -/
def pyJoin (sep : String) : List String → String
  | [] => ""
  | [x] => x
  | x :: y :: rest => x ++ sep ++ pyJoin sep (y :: rest)

/-- Configuration document persisted at config.json; field-for-field the
dictionary built in bot.py load_config and mutated by the command handlers. -/
structure Config where
  monitor_channel : Option String
  keyword_initial : List String
  keyword_contain : List String
  sending_channels : List String
  admins : List String
  deriving DecidableEq, Repr

/-- Process-wide state relevant to configuration handling: the SUPER_ADMINS
list read at startup and the stored configuration document (none when
config.json does not exist in the bucket). -/
structure BotState where
  superAdmins : List String
  stored : Option Config
  deriving DecidableEq, Repr

/-- Default configuration built by load_config when config.json is absent.
In the Python source the admins entry is the very SUPER_ADMINS list object
(no copy is taken), so the returned document aliases the global list. -/
def default_config (superAdmins : List String) : Config :=
  { monitor_channel := none
    keyword_initial := []
    keyword_contain := []
    sending_channels := []
    admins := superAdmins }

/-- Translates bot.py load_config: returns the stored document, or the lazy
default.  The boolean records whether the admins list of the returned
document is the SUPER_ADMINS list object itself (Python aliasing): this is
the case exactly on the default branch, since json.loads always builds fresh
lists for a stored document. -/
def load_config (st : BotState) : Config × Bool :=
  match st.stored with
  | some c => (c, false)
  | none => (default_config st.superAdmins, true)

/-- Authorization gate, translated from bot.py is_admin.  The configuration
the Python function loads from S3 and the global SUPER_ADMINS list are passed
as arguments.  Python falsiness of the username (None or the empty string)
yields false. -/
def is_admin (username : Option String) (config : Config)
    (superAdmins : List String) : Bool :=
  match username with
  | none => false
  | some u =>
    if u = "" then false
    else
      let u1 := if pyStartsWith u "@" then u else "@" ++ u
      let u2 := pyLower u1
      decide (u2 ∈ config.admins.map pyLower ∨ u2 ∈ superAdmins.map pyLower)

/-- Normalisation the spec describes for the authorization gate: ensure a
leading @ sigil, then lower-case. -/
def normalize_handle (u : String) : String :=
  pyLower (if pyStartsWith u "@" then u else "@" ++ u)

/-- First keyword of the list that is a case-insensitive prefix of the
(already lowered) text; the for-loop with break over keyword_initial in
bot.py handle_channel_post. -/
def first_prefix_match (textLower : String) : List String → Option String
  | [] => none
  | kw :: rest =>
    if pyStartsWith textLower (pyLower kw) then some kw
    else first_prefix_match textLower rest

/-- First keyword of the list contained case-insensitively in the (already
lowered) text; the for-loop with break over keyword_contain in bot.py
handle_channel_post. -/
def first_contain_match (textLower : String) : List String → Option String
  | [] => none
  | kw :: rest =>
    if pyContains textLower (pyLower kw) then some kw
    else first_contain_match textLower rest

/-- Rule engine: the forwarding decision inlined in bot.py
handle_channel_post (the empty-ruleset default-allow branch, then the
prefix loop, then the substring loop).  Returns the decision and the
matched keyword. -/
def decide_forward (text : String)
    (keyword_initial keyword_contain : List String) : Bool × Option String :=
  if keyword_initial.isEmpty && keyword_contain.isEmpty then (true, none)
  else
    let textLower := pyLower text
    match first_prefix_match textLower keyword_initial with
    | some kw => (true, some kw)
    | none =>
      match first_contain_match textLower keyword_contain with
      | some kw => (true, some kw)
      | none => (false, none)

/-- Inbound channel post as the dispatcher sees it: chat identifier already
stringified, message identifier, and optional text (None for a post with no
textual content). -/
structure Post where
  chat_id : String
  message_id : Nat
  text : Option String
  deriving DecidableEq, Repr

/-- Summary log entry written by the dispatcher: either the default-allow
copy (no keywords configured) or a keyword-matched copy. -/
inductive DispatchLog where
  | defaultCopy (message_id : Nat) (source : String) (dests : List String)
  | keywordCopy (message_id : Nat) (source : String) (dests : List String)
      (matched : String)
  deriving DecidableEq, Repr

/-- Observable effects of one dispatcher invocation: attempted sends (the
destination channel and the text passed to send_message; per-destination
delivery failures are caught in the source and do not change which sends are
attempted) and appended audit-log events. -/
structure DispatchResult where
  sends : List (String × String)
  logs : List DispatchLog
  deriving DecidableEq, Repr

/-- Post dispatcher, translated from bot.py handle_channel_post.  The source
compares str(message.chat.id) with config['monitor_channel'] (inequality
also holds when the latter is None) and returns without any action on
mismatch; otherwise it runs the inlined rule engine (decide_forward) and on
a positive decision sends the text to every sending channel and logs one
summary event (default-allow wording when no keyword matched). -/
def handle_channel_post (config : Config) (post : Post) : DispatchResult :=
  if config.monitor_channel = some post.chat_id then
    let text := post.text.getD ""
    let r := decide_forward text config.keyword_initial config.keyword_contain
    if r.1 then
      { sends := config.sending_channels.map (fun c => (c, text))
        logs := [match r.2 with
          | none => DispatchLog.defaultCopy post.message_id post.chat_id
              config.sending_channels
          | some kw => DispatchLog.keywordCopy post.message_id post.chat_id
              config.sending_channels kw] }
    else { sends := [], logs := [] }
  else { sends := [], logs := [] }

/-- Continuation of /set_monitor_channel, translated from bot.py
process_set_monitor_channel.  The chat-transport collaborator bot.get_chat is
abstracted as resolve (some title when the identifier resolves, none when
get_chat raises); on failure nothing is saved. -/
def process_set_monitor_channel (resolve : String → Option String)
    (config : Config) (msgText : String) : Config :=
  let channel_id := pyStrip msgText
  match resolve channel_id with
  | some _ => { config with monitor_channel := some channel_id }
  | none => config

/-- Continuation of /set_keyword_initial, translated from bot.py
process_set_keyword_initial: the sentinel .-. clears the list, more than 5
parsed keywords are rejected without saving, otherwise the field is replaced
wholesale by the comma-split, per-item-stripped list. -/
def process_set_keyword_initial (config : Config) (msgText : String) : Config :=
  let input_text := pyStrip msgText
  if input_text = ".-." then { config with keyword_initial := [] }
  else
    let keywords := (pySplit ',' input_text).map pyStrip
    if keywords.length > 5 then config
    else { config with keyword_initial := keywords }

/-- Continuation of /set_keyword_contain, translated from bot.py
process_set_keyword_contain; identical shape to the keyword_initial handler. -/
def process_set_keyword_contain (config : Config) (msgText : String) : Config :=
  let input_text := pyStrip msgText
  if input_text = ".-." then { config with keyword_contain := [] }
  else
    let keywords := (pySplit ',' input_text).map pyStrip
    if keywords.length > 5 then config
    else { config with keyword_contain := keywords }

/-- Outcome reported by the sending-channel continuation: batch too large,
first identifier that failed to resolve, or success. -/
inductive SetChannelsResult where
  | tooMany : SetChannelsResult
  | badChannel : String → SetChannelsResult
  | ok : SetChannelsResult
  deriving DecidableEq, Repr

/-- Resolution loop of bot.py process_set_sending_channel: resolve the
identifiers in order, collecting (id, title) pairs, and stop at the first
identifier get_chat fails on, reporting it. -/
def collect_valid (resolve : String → Option String) :
    List String → Except String (List (String × String))
  | [] => Except.ok []
  | cid :: rest =>
    match resolve cid with
    | none => Except.error cid
    | some title =>
      match collect_valid resolve rest with
      | Except.error bad => Except.error bad
      | Except.ok l => Except.ok ((cid, title) :: l)

/-- Continuation of /set_sending_channel, translated from bot.py
process_set_sending_channel: comma-split and strip the identifiers, reject
more than 3, resolve each in order rejecting the whole batch at the first
failure (naming that identifier), otherwise replace sending_channels
wholesale. -/
def process_set_sending_channel (resolve : String → Option String)
    (config : Config) (msgText : String) : Config × SetChannelsResult :=
  let channel_ids := (pySplit ',' msgText).map pyStrip
  if channel_ids.length > 3 then (config, SetChannelsResult.tooMany)
  else
    match collect_valid resolve channel_ids with
    | Except.error bad => (config, SetChannelsResult.badChannel bad)
    | Except.ok valid =>
      ({ config with sending_channels := valid.map Prod.fst },
        SetChannelsResult.ok)

/-- Continuation of /add_admin, translated from bot.py process_add_admin on
the process state.  The handler strips the reply, loads the configuration
and, when the handle is new, appends it in place to config['admins'] and
saves.  Because the lazily created default document aliases its admins list
to the global SUPER_ADMINS list (see load_config), the in-place append also
mutates superAdmins exactly when the document was absent. -/
def process_add_admin (st : BotState) (msgText : String) : BotState :=
  let handle_name := pyStrip msgText
  let r := load_config st
  if handle_name ∈ r.1.admins then st
  else
    let admins' := r.1.admins ++ [handle_name]
    { superAdmins := if r.2 then admins' else st.superAdmins
      stored := some { r.1 with admins := admins' } }

/-- Decimal value of a digit list. -/
def digitsVal (l : List Char) : Nat :=
  l.foldl (fun a c => a * 10 + (c.toNat - 48)) 0

/-- Models Python int() on an already stripped string: optional minus sign
followed by decimal digits. -/
def pyToInt? (s : String) : Option Int :=
  match s.data with
  | [] => none
  | c :: rest =>
    if c = '-' then
      if rest ≠ [] ∧ rest.all Char.isDigit then
        some (-(Int.ofNat (digitsVal rest))) else none
    else if (c :: rest).all Char.isDigit then
      some (Int.ofNat (digitsVal (c :: rest)))
    else none

/-- Continuation of /rm_admin, translated from bot.py process_rm_admin:
parse a 1-based index, remove that admin when in range, otherwise (or on a
parse failure) change nothing. -/
def process_rm_admin (config : Config) (msgText : String) : Config :=
  match pyToInt? (pyStrip msgText) with
  | none => config
  | some i =>
    let index := i - 1
    if 0 ≤ index ∧ index < (config.admins.length : Int) then
      { config with admins := config.admins.eraseIdx index.toNat }
    else config

/-- Models Python str.splitlines for newline-separated content (the only
line separator log_event ever writes): split at every newline and drop the
single empty trailing piece produced by a terminating newline. -/
def splitlines (s : String) : List String :=
  let parts := (splitOnChar '\n' s.data).map String.mk
  if parts.getLast? = some "" then parts.dropLast else parts

/-- Translated from bot.py log_event, restricted to the content of the
current day's log object: format the entry as timestamp - event and append
it to the existing content (read-modify-write; a missing object starts
fresh). -/
def log_event (nowStr event : String) (content : Option String) : Option String :=
  let entry := nowStr ++ " - " ++ event ++ "\n"
  match content with
  | some c => some (c ++ entry)
  | none => some entry

/-- Cleanup message written by bot.py clean_old_logs after truncating. -/
def cleanup_msg (logKey : String) (oldCount : Nat) : String :=
  "清理日志: " ++ logKey ++ " 从 " ++ toString oldCount ++ " 条缩减至 500 条"

/-- Translated from bot.py clean_old_logs, acting on the content of the
current day's log object: when the object exists and holds more than 500
lines, write back the last 500 lines joined by newlines (plus a trailing
newline) and then log the cleanup via log_event, which appends one more
entry to the freshly written content; otherwise leave the object alone. -/
def clean_old_logs (nowStr logKey : String) (content : Option String) :
    Option String :=
  match content with
  | none => none
  | some c =>
    let logLines := splitlines c
    if logLines.length > 500 then
      let newContent :=
        pyJoin "\n" (logLines.drop (logLines.length - 500)) ++ "\n"
      log_event nowStr (cleanup_msg logKey logLines.length) (some newContent)
    else some c

/-- Cardinality invariant of the stored configuration stated by the spec for
the three bounded list fields. -/
def cardinality_invariant (c : Config) : Prop :=
  c.keyword_initial.length ≤ 5 ∧ c.keyword_contain.length ≤ 5 ∧
    c.sending_channels.length ≤ 3

/-! Helper lemmas about the modelled Python string primitives. -/

theorem pyLower_data (s : String) : (pyLower s).data = s.data.map Char.toLower :=
  rfl

theorem data_eq_nil_iff {s : String} : s.data = [] ↔ s = "" := by
  constructor
  · intro h
    apply String.ext
    rw [h]
  · intro h
    rw [h]

theorem pyLower_ne_empty {s : String} (h : s ≠ "") : pyLower s ≠ "" := by
  intro he
  apply h
  rw [← data_eq_nil_iff] at he ⊢
  rw [pyLower_data] at he
  exact List.map_eq_nil_iff.mp he

theorem char_toLower_eq_at {c : Char} (h : Char.toLower c = '@') : c = '@' := by
  simp only [Char.toLower] at h
  split at h
  · next hc =>
    exfalso
    have hv : (c.toNat + 32).isValidChar := Or.inl (by omega)
    rw [Char.ofNat, dif_pos hv] at h
    have h2 : (Char.ofNatAux (c.toNat + 32) hv).toNat = ('@' : Char).toNat := by
      rw [h]
    have h3 : (Char.ofNatAux (c.toNat + 32) hv).toNat = c.toNat + 32 := rfl
    have h4 : ('@' : Char).toNat = 64 := rfl
    omega
  · exact h

theorem startsWith_at_head {u : String} {t : List Char} (h : u.data = '@' :: t) :
    pyStartsWith u "@" = true := by
  simp only [pyStartsWith, h]
  simp [List.isPrefixOf]

theorem exists_head_of_startsWith_at {u : String}
    (h : pyStartsWith u "@" = true) : ∃ t, u.data = '@' :: t := by
  simp only [pyStartsWith] at h
  cases hd : u.data with
  | nil => rw [hd] at h; exact absurd h (by decide)
  | cons b bs =>
    rw [hd] at h
    have hb : b = '@' := by
      have : ('@' == b) = true := by
        cases hbe : ('@' == b) with
        | true => rfl
        | false =>
          exfalso
          have : List.isPrefixOf ['@'] (b :: bs) = false := by
            simp [List.isPrefixOf, hbe]
          rw [this] at h
          exact absurd h (by decide)
      exact (beq_iff_eq.mp this).symm
    subst hb
    exact ⟨bs, rfl⟩

theorem startsWith_at_of_lower_head {u : String} {t : List Char}
    (h : (pyLower u).data = '@' :: t) : pyStartsWith u "@" = true := by
  rw [pyLower_data] at h
  cases hd : u.data with
  | nil => rw [hd] at h; exact absurd h (by simp)
  | cons c cs =>
    rw [hd] at h
    simp only [List.map_cons, List.cons.injEq] at h
    exact startsWith_at_head (by rw [hd, char_toLower_eq_at h.1])

theorem normalized_ne_lower {h h' : String}
    (hat : pyStartsWith h "@" = false)
    (hcase : pyLower h' = pyLower h) :
    pyLower (if pyStartsWith h' "@" then h' else "@" ++ h') ≠ pyLower h := by
  by_cases hb : pyStartsWith h' "@" = true
  · exfalso
    obtain ⟨t, ht⟩ := exists_head_of_startsWith_at hb
    have hl : (pyLower h').data = '@' :: t.map Char.toLower := by
      rw [pyLower_data, ht]
      rfl
    rw [hcase] at hl
    rw [startsWith_at_of_lower_head hl] at hat
    exact absurd hat (by decide)
  · rw [if_neg hb]
    intro heq
    have hl : (pyLower ("@" ++ h')).data = '@' :: h'.data.map Char.toLower := by
      rw [pyLower_data, String.data_append]
      rfl
    rw [heq] at hl
    rw [startsWith_at_of_lower_head hl] at hat
    exact absurd hat (by decide)

theorem first_prefix_match_ne_nil {t : String} {l : List String} {kw : String}
    (h : first_prefix_match t l = some kw) : l ≠ [] := by
  intro he
  rw [he] at h
  exact absurd h (by simp [first_prefix_match])

theorem first_contain_match_ne_nil {t : String} {l : List String} {kw : String}
    (h : first_contain_match t l = some kw) : l ≠ [] := by
  intro he
  rw [he] at h
  exact absurd h (by simp [first_contain_match])

theorem first_prefix_match_empty_text {l : List String}
    (h : ∀ kw ∈ l, kw ≠ "") : first_prefix_match "" l = none := by
  induction l with
  | nil => rfl
  | cons kw rest ih =>
    have hkw : pyStartsWith "" (pyLower kw) = false := by
      have hne : (pyLower kw).data ≠ [] := by
        intro hd
        exact pyLower_ne_empty (h kw (by simp)) (data_eq_nil_iff.mp hd)
      simp only [pyStartsWith]
      cases hd : (pyLower kw).data with
      | nil => exact absurd hd hne
      | cons c cs => rfl
    simp only [first_prefix_match, hkw]
    simp only [Bool.false_eq_true, if_false]
    exact ih (fun kw hm => h kw (by simp [hm]))

theorem first_contain_match_empty_text {l : List String}
    (h : ∀ kw ∈ l, kw ≠ "") : first_contain_match "" l = none := by
  induction l with
  | nil => rfl
  | cons kw rest ih =>
    have hkw : pyContains "" (pyLower kw) = false := by
      have hne : (pyLower kw).data ≠ [] := by
        intro hd
        exact pyLower_ne_empty (h kw (by simp)) (data_eq_nil_iff.mp hd)
      simp only [pyContains, listContainsSub]
      cases hd : (pyLower kw).data with
      | nil => exact absurd hd hne
      | cons c cs => rfl
    simp only [first_contain_match, hkw]
    simp only [Bool.false_eq_true, if_false]
    exact ih (fun kw hm => h kw (by simp [hm]))

theorem decide_forward_empty_text {kwi kwc : List String}
    (hne : kwi ≠ [] ∨ kwc ≠ [])
    (h1 : ∀ kw ∈ kwi, kw ≠ "") (h2 : ∀ kw ∈ kwc, kw ≠ "") :
    decide_forward "" kwi kwc = (false, none) := by
  have hcond : (kwi.isEmpty && kwc.isEmpty) = false := by
    rcases hne with h | h
    · cases kwi with
      | nil => exact absurd rfl h
      | cons a l => rfl
    · cases kwc with
      | nil => exact absurd rfl h
      | cons a l => simp
  have hlow : pyLower "" = "" := rfl
  simp only [decide_forward, hcond, Bool.false_eq_true, if_false, hlow,
    first_prefix_match_empty_text h1, first_contain_match_empty_text h2]

theorem collect_valid_error_at (resolve : String → Option String)
    (pre : List String) (cid : String) (post : List String)
    (hpre : ∀ p ∈ pre, resolve p ≠ none) (hcid : resolve cid = none) :
    collect_valid resolve (pre ++ cid :: post) = Except.error cid := by
  induction pre with
  | nil => simp only [List.nil_append, collect_valid, hcid]
  | cons p l ih =>
    have hp : resolve p ≠ none := hpre p (by simp)
    obtain ⟨t, ht⟩ := Option.ne_none_iff_exists'.mp hp
    have ihh := ih (fun q hq => hpre q (by simp [hq]))
    simp only [List.cons_append, collect_valid, ht, List.append_eq, ihh]

theorem collect_valid_ok (resolve : String → Option String) :
    ∀ l : List String, (∀ i ∈ l, resolve i ≠ none) →
      ∃ v, collect_valid resolve l = Except.ok v ∧ v.map Prod.fst = l := by
  intro l
  induction l with
  | nil => exact fun _ => ⟨[], rfl, rfl⟩
  | cons cid rest ih =>
    intro h
    obtain ⟨t, ht⟩ := Option.ne_none_iff_exists'.mp (h cid (by simp))
    obtain ⟨v, hv, hmap⟩ := ih (fun q hq => h q (by simp [hq]))
    refine ⟨(cid, t) :: v, ?_, ?_⟩
    · simp only [collect_valid, ht, hv]
    · simp [hmap]

theorem collect_valid_ok_length {resolve : String → Option String} :
    ∀ {l : List String} {v : List (String × String)},
      collect_valid resolve l = Except.ok v → v.length = l.length := by
  intro l
  induction l with
  | nil =>
    intro v h
    simp only [collect_valid, Except.ok.injEq] at h
    rw [← h]
    rfl
  | cons cid rest ih =>
    intro v h
    simp only [collect_valid] at h
    cases hr : resolve cid with
    | none => rw [hr] at h; exact absurd h (by simp)
    | some t =>
      rw [hr] at h
      cases hc : collect_valid resolve rest with
      | error e => rw [hc] at h; exact absurd h (by simp)
      | ok w =>
        rw [hc] at h
        simp only [Except.ok.injEq] at h
        rw [← h]
        simp [ih hc]

/-! Claim theorems. -/

/-- C1: the claim says no mutating command handler ever modifies the
process-wide SUPER_ADMINS list, even when the configuration document does
not yet exist.  The code violates this: load_config's lazy default aliases
its admins entry to the SUPER_ADMINS list object, so the in-place append in
process_add_admin mutates SUPER_ADMINS whenever the document is absent.
This theorem evaluates the handler at that failing input (super admins
["@root"], no stored document, reply "@new"), showing SUPER_ADMINS grows to
["@root", "@new"]; the second conjunct shows the mutation cannot happen once
a stored document exists. -/
theorem c1_super_admins_mutated_when_config_absent :
    (process_add_admin (BotState.mk ["@root"] none) "@new").superAdmins =
      ["@root", "@new"] ∧
    (∀ sa c msg,
      (process_add_admin (BotState.mk sa (some c)) msg).superAdmins = sa) := by
  constructor
  · rfl
  · intro sa c msg
    simp only [process_add_admin, load_config]
    split
    · rfl
    · rfl

/-- C4: with both keyword lists empty, the forwarding decision is
forward=true with no matched keyword, for every text including the empty
string (default-allow policy). -/
theorem c4_default_allow :
    ∀ (c : Config), c.keyword_initial = [] → c.keyword_contain = [] →
      ∀ text, decide_forward text c.keyword_initial c.keyword_contain =
        (true, none) := by
  intro c h1 h2 text
  rw [h1, h2]
  rfl

/-- Witness for c4_default_allow at the empty configuration and the empty
text. -/
theorem c4_default_allow_witness :
    decide_forward "" (Config.mk none [] [] [] []).keyword_initial
      (Config.mk none [] [] [] []).keyword_contain = (true, none) :=
  c4_default_allow (Config.mk none [] [] [] []) rfl rfl ""

/-- C5: the forwarding decision only depends on the lower-cased text
(case-insensitive matching); keyword_initial entries are scanned in list
order for a case-insensitive prefix hit and the first hit wins regardless of
keyword_contain (prefix precedence); keyword_contain entries are scanned as
substrings in list order only when no prefix rule matched; and on the
spec's concrete example the prefix rule "x" beats the substring rule "y". -/
theorem c5_matching_order_precedence :
    (∀ text text' kwi kwc, pyLower text = pyLower text' →
      decide_forward text kwi kwc = decide_forward text' kwi kwc) ∧
    (∀ text kwi kwc kw, first_prefix_match (pyLower text) kwi = some kw →
      decide_forward text kwi kwc = (true, some kw)) ∧
    (∀ text kwi kwc kw, first_prefix_match (pyLower text) kwi = none →
      first_contain_match (pyLower text) kwc = some kw →
      decide_forward text kwi kwc = (true, some kw)) ∧
    decide_forward "x contains y" ["x"] ["y"] = (true, some "x") := by
  refine ⟨?_, ?_, ?_, by decide⟩
  · intro text text' kwi kwc h
    unfold decide_forward
    rw [h]
  · intro text kwi kwc kw h
    cases hk : kwi with
    | nil => rw [hk] at h; exact absurd h (by simp [first_prefix_match])
    | cons a l =>
      rw [hk] at h
      simp only [decide_forward, List.isEmpty_cons, Bool.false_and,
        Bool.false_eq_true, if_false, h]
  · intro text kwi kwc kw h1 h2
    cases hk : kwc with
    | nil => rw [hk] at h2; exact absurd h2 (by simp [first_contain_match])
    | cons a l =>
      rw [hk] at h2
      simp only [decide_forward, List.isEmpty_cons, Bool.and_false,
        Bool.false_eq_true, if_false, h1, h2]

/-- Witness for c5_matching_order_precedence: the case-insensitive prefix
rule "alpha" fires on "Alpha wins" even with a substring rule present. -/
theorem c5_matching_order_precedence_witness :
    decide_forward "Alpha wins" ["alpha"] ["zzz"] = (true, some "alpha") :=
  c5_matching_order_precedence.2.1 "Alpha wins" ["alpha"] ["zzz"] "alpha"
    (by decide)

/-- C8: a post whose originating channel identifier differs from
monitor_channel (in particular whenever monitor_channel is unset) produces
no send and no log entry at all; and in the end-to-end scenario (monitored
channel "-100111", empty keyword lists, sending_channels ["-100222"]) a post
with text "anything" produces exactly one send, to "-100222", carrying
"anything" verbatim, plus one default-allow log entry. -/
theorem c8_dispatcher_behaviour :
    (∀ config post, config.monitor_channel ≠ some post.chat_id →
      handle_channel_post config post = DispatchResult.mk [] []) ∧
    (∀ mid adm,
      handle_channel_post (Config.mk (some "-100111") [] [] ["-100222"] adm)
        (Post.mk "-100111" mid (some "anything")) =
      DispatchResult.mk [("-100222", "anything")]
        [DispatchLog.defaultCopy mid "-100111" ["-100222"]]) := by
  constructor
  · intro config post h
    simp only [handle_channel_post, if_neg h]
  · intro mid adm
    rfl

/-- Witness for c8_dispatcher_behaviour: with monitor_channel unset, a post
is ignored entirely. -/
theorem c8_dispatcher_behaviour_witness :
    handle_channel_post (Config.mk none ["k"] [] ["-2"] []) (Post.mk "-1" 0 (some "k")) =
      DispatchResult.mk [] [] :=
  c8_dispatcher_behaviour.1 (Config.mk none ["k"] [] ["-2"] [])
    (Post.mk "-1" 0 (some "k")) (by decide)

/-- C2 counterexample: the claim asserts is_admin returns true for a handle
present in admins in any casing, but for the stored entry "alice" (no @
sigil) the handle "alice" — present verbatim in admins — is rejected,
because is_admin compares the @-prefixed lower-cased form "@alice" against
the stored entries. -/
theorem c2_counterexample :
    "alice" ∈ (Config.mk none [] [] [] ["alice"]).admins ∧
    is_admin (some "alice") (Config.mk none [] [] [] ["alice"]) [] = false := by
  constructor
  · decide
  · decide

/-- C2 (amended): is_admin returns false for an absent or empty handle under
every configuration; for a non-empty handle it returns true exactly when the
normalized handle (@-sigil ensured, lower-cased) appears case-insensitively
in config.admins or in the super-admin list; in particular it returns true
for an @-prefixed handle stored in admins in any casing, and for any
@-prefixed super-admin handle even when admins is empty. -/
theorem c2_authorization_gate :
    (∀ config sa, is_admin none config sa = false) ∧
    (∀ config sa, is_admin (some "") config sa = false) ∧
    (∀ u config sa, u ≠ "" →
      (is_admin (some u) config sa = true ↔
        (normalize_handle u ∈ config.admins.map pyLower ∨
         normalize_handle u ∈ sa.map pyLower))) ∧
    (∀ u v config sa, pyStartsWith u "@" = true → v ∈ config.admins →
      pyLower v = pyLower u → is_admin (some u) config sa = true) ∧
    (∀ u config sa, config.admins = [] → pyStartsWith u "@" = true →
      u ∈ sa → is_admin (some u) config sa = true) := by
  have hmain : ∀ u config sa, u ≠ "" →
      (is_admin (some u) config sa = true ↔
        (normalize_handle u ∈ config.admins.map pyLower ∨
         normalize_handle u ∈ sa.map pyLower)) := by
    intro u config sa hu
    simp only [is_admin, if_neg hu, normalize_handle, decide_eq_true_eq]
  have hne : ∀ u : String, pyStartsWith u "@" = true → u ≠ "" := by
    intro u h he
    rw [he] at h
    exact absurd h (by decide)
  have hnorm : ∀ u : String, pyStartsWith u "@" = true →
      normalize_handle u = pyLower u := by
    intro u h
    simp only [normalize_handle, if_pos h]
  refine ⟨fun _ _ => rfl, fun _ _ => rfl, hmain, ?_, ?_⟩
  · intro u v config sa hat hv hlow
    refine (hmain u config sa (hne u hat)).mpr (Or.inl ?_)
    rw [hnorm u hat, ← hlow]
    exact List.mem_map_of_mem pyLower hv
  · intro u config sa _ hat hu
    refine (hmain u config sa (hne u hat)).mpr (Or.inr ?_)
    rw [hnorm u hat]
    exact List.mem_map_of_mem pyLower hu

/-- Witness for c2_authorization_gate: the handle "@ALICE" matches the
stored admin entry "@alice" case-insensitively. -/
theorem c2_authorization_gate_witness :
    is_admin (some "@ALICE") (Config.mk none [] [] [] ["@alice"]) [] = true :=
  c2_authorization_gate.2.2.2.1 "@ALICE" "@alice"
    (Config.mk none [] [] [] ["@alice"]) [] (by decide) (by decide) (by decide)

/-- C3 counterexample: the claim asserts that with a non-empty keyword list
an empty-text post is never forwarded, but the empty keyword "" (storable,
e.g. by replying "," to /set_keyword_initial) is a prefix of the empty
text, so the post is forwarded. -/
theorem c3_counterexample :
    (Config.mk (some "-1") [""] [] ["-2"] []).keyword_initial ≠ [] ∧
    (handle_channel_post (Config.mk (some "-1") [""] [] ["-2"] [])
      (Post.mk "-1" 7 none)).sends ≠ [] := by
  constructor
  · decide
  · decide

/-- C3 (amended): for every configuration in which keyword_initial or
keyword_contain is non-empty and no keyword entry is the empty string, a
channel post with no textual content (treated as the empty string) is never
forwarded and produces no log entry; forwarding of an empty text happens
only under the empty-ruleset default-allow policy (or with an empty keyword
configured). -/
theorem c3_empty_text_not_forwarded :
    ∀ config post, post.text = none →
      (config.keyword_initial ≠ [] ∨ config.keyword_contain ≠ []) →
      (∀ kw ∈ config.keyword_initial, kw ≠ "") →
      (∀ kw ∈ config.keyword_contain, kw ≠ "") →
      handle_channel_post config post = DispatchResult.mk [] [] := by
  intro config post htext hne h1 h2
  by_cases hc : config.monitor_channel = some post.chat_id
  · simp only [handle_channel_post, if_pos hc, htext, Option.getD_none,
      decide_forward_empty_text hne h1 h2, Bool.false_eq_true, if_false]
  · simp only [handle_channel_post, if_neg hc]

/-- Witness for c3_empty_text_not_forwarded: a textless post on the
monitored channel with prefix keyword "a" configured is dropped. -/
theorem c3_empty_text_not_forwarded_witness :
    handle_channel_post (Config.mk (some "-1") ["a"] [] ["-2"] [])
      (Post.mk "-1" 3 none) = DispatchResult.mk [] [] :=
  c3_empty_text_not_forwarded (Config.mk (some "-1") ["a"] [] ["-2"] [])
    (Post.mk "-1" 3 none) rfl (by decide) (by decide) (by decide)

/-- C6: every configuration-persisting handler preserves the cardinality
invariant (keyword_initial and keyword_contain at most 5 entries,
sending_channels at most 3), and submitting 6 or more prefix keywords is
rejected with the stored configuration unchanged. -/
theorem c6_cardinality_invariant_preserved :
    (∀ resolve c msg, cardinality_invariant c →
      cardinality_invariant (process_set_monitor_channel resolve c msg)) ∧
    (∀ c msg, cardinality_invariant c →
      cardinality_invariant (process_set_keyword_initial c msg)) ∧
    (∀ c msg, cardinality_invariant c →
      cardinality_invariant (process_set_keyword_contain c msg)) ∧
    (∀ resolve c msg, cardinality_invariant c →
      cardinality_invariant (process_set_sending_channel resolve c msg).1) ∧
    (∀ st msg c', (∀ c ∈ st.stored, cardinality_invariant c) →
      (process_add_admin st msg).stored = some c' →
      cardinality_invariant c') ∧
    (∀ c msg, cardinality_invariant c →
      cardinality_invariant (process_rm_admin c msg)) ∧
    (∀ c msg, 6 ≤ (pySplit ',' (pyStrip msg)).length →
      process_set_keyword_initial c msg = c) := by
  refine ⟨?_, ?_, ?_, ?_, ?_, ?_, ?_⟩
  · intro resolve c msg hinv
    simp only [process_set_monitor_channel]
    cases hr : resolve (pyStrip msg) with
    | none => exact hinv
    | some t => exact hinv
  · intro c msg hinv
    obtain ⟨ha, hb, hc3⟩ := hinv
    simp only [process_set_keyword_initial]
    split
    · exact ⟨by simp, hb, hc3⟩
    · split
      · next hgt => exact ⟨ha, hb, hc3⟩
      · next hle => exact ⟨Nat.le_of_not_lt hle, hb, hc3⟩
  · intro c msg hinv
    obtain ⟨ha, hb, hc3⟩ := hinv
    simp only [process_set_keyword_contain]
    split
    · exact ⟨ha, by simp, hc3⟩
    · split
      · next hgt => exact ⟨ha, hb, hc3⟩
      · next hle => exact ⟨ha, Nat.le_of_not_lt hle, hc3⟩
  · intro resolve c msg hinv
    simp only [process_set_sending_channel]
    split
    · exact hinv
    · next hlen =>
      cases hcv : collect_valid resolve ((pySplit ',' msg).map pyStrip) with
      | error bad => exact hinv
      | ok v =>
        obtain ⟨ha, hb, hc3⟩ := hinv
        refine ⟨ha, hb, ?_⟩
        show (v.map Prod.fst).length ≤ 3
        rw [List.length_map, collect_valid_ok_length hcv]
        exact Nat.le_of_not_lt hlen
  · intro st msg c' hinv hres
    obtain ⟨sa, stored⟩ := st
    cases stored with
    | none =>
      simp only [process_add_admin, load_config, default_config] at hres
      split at hres
      · exact absurd hres (by simp)
      · simp only [Option.some.injEq] at hres
        rw [← hres]
        exact ⟨by simp, by simp, by simp⟩
    | some c =>
      simp only [process_add_admin, load_config] at hres
      split at hres
      · simp only [Option.some.injEq] at hres
        rw [← hres]
        exact hinv c rfl
      · simp only [Option.some.injEq] at hres
        rw [← hres]
        exact hinv c rfl
  · intro c msg hinv
    simp only [process_rm_admin]
    cases hp : pyToInt? (pyStrip msg) with
    | none => exact hinv
    | some i =>
      dsimp only
      by_cases hr : 0 ≤ i - 1 ∧ i - 1 < (c.admins.length : Int)
      · rw [if_pos hr]
        exact hinv
      · rw [if_neg hr]
        exact hinv
  · intro c msg h
    have hne2 : pyStrip msg ≠ ".-." := by
      intro heq
      rw [heq] at h
      exact absurd h (by decide)
    have h5 : 5 < ((pySplit ',' (pyStrip msg)).map pyStrip).length := by
      rw [List.length_map]
      omega
    simp only [process_set_keyword_initial, if_neg hne2, if_pos h5]

/-- Witness for c6_cardinality_invariant_preserved: a 6-keyword submission
leaves a full 5-keyword configuration unchanged. -/
theorem c6_cardinality_invariant_preserved_witness :
    process_set_keyword_initial
      (Config.mk none ["a", "b", "c", "d", "e"] [] [] []) "p,q,r,s,t,u" =
    Config.mk none ["a", "b", "c", "d", "e"] [] [] [] :=
  c6_cardinality_invariant_preserved.2.2.2.2.2.2
    (Config.mk none ["a", "b", "c", "d", "e"] [] [] []) "p,q,r,s,t,u"
    (by decide)

/-- C7: when setting sending channels with a batch that passes the size
gate, a batch whose first unresolvable identifier is cid is rejected
wholesale — the configuration (in particular sending_channels) is returned
unchanged and the error names cid; a batch whose identifiers all resolve
replaces sending_channels wholesale with the parsed identifiers. -/
theorem c7_sending_channels_batch :
    (∀ resolve config msgText pre cid post,
      (pySplit ',' msgText).map pyStrip = pre ++ cid :: post →
      ((pySplit ',' msgText).map pyStrip).length ≤ 3 →
      (∀ p ∈ pre, resolve p ≠ none) →
      resolve cid = none →
      process_set_sending_channel resolve config msgText =
        (config, SetChannelsResult.badChannel cid)) ∧
    (∀ resolve config msgText,
      ((pySplit ',' msgText).map pyStrip).length ≤ 3 →
      (∀ i ∈ (pySplit ',' msgText).map pyStrip, resolve i ≠ none) →
      process_set_sending_channel resolve config msgText =
        ({ config with
            sending_channels := (pySplit ',' msgText).map pyStrip },
          SetChannelsResult.ok)) := by
  constructor
  · intro resolve config msgText pre cid post hsplit hlen hpre hcid
    simp only [process_set_sending_channel, if_neg (Nat.not_lt.mpr hlen)]
    rw [hsplit, collect_valid_error_at resolve pre cid post hpre hcid]
  · intro resolve config msgText hlen hall
    obtain ⟨v, hv, hmap⟩ := collect_valid_ok resolve _ hall
    simp only [process_set_sending_channel, if_neg (Nat.not_lt.mpr hlen),
      hv, hmap]

/-- Witness for c7_sending_channels_batch: in a 3-identifier batch whose
second identifier fails to resolve, the prior sending_channels survive and
the error names the second identifier. -/
theorem c7_sending_channels_batch_witness :
    process_set_sending_channel
      (fun s => if s = "-100222" then some "T" else none)
      (Config.mk none [] [] ["-999"] []) "-100222,-100999,-100333" =
    (Config.mk none [] [] ["-999"] [],
      SetChannelsResult.badChannel "-100999") :=
  c7_sending_channels_batch.1
    (fun s => if s = "-100222" then some "T" else none)
    (Config.mk none [] [] ["-999"] []) "-100222,-100999,-100333"
    ["-100222"] "-100999" ["-100333"]
    (by decide) (by decide) (by decide) (by decide)

theorem is_admin_false_preserved_append {config : Config} {sa : List String}
    {h h' : String}
    (hat : pyStartsWith h "@" = false)
    (hcase : pyLower h' = pyLower h)
    (hbefore : is_admin (some h') config sa = false) :
    is_admin (some h')
      { config with admins := config.admins ++ [h] } sa = false := by
  by_cases he : h' = ""
  · rw [he]
    rfl
  · simp only [is_admin, if_neg he, decide_eq_false_iff_not, not_or]
      at hbefore ⊢
    obtain ⟨hb1, hb2⟩ := hbefore
    refine ⟨?_, hb2⟩
    simp only [List.map_append, List.map_cons, List.map_nil, List.mem_append,
      List.mem_cons, List.not_mem_nil, or_false, not_or]
    exact ⟨hb1, normalized_ne_lower hat hcase⟩

/-- C10: the add-admin continuation stores the replied handle verbatim
(only whitespace-trimmed, no sigil and no case normalization); and for a
stripped handle that does not start with @, adding it leaves is_admin false
for that handle in every casing whenever it was false before the addition
(the stored entry can never equal the @-prefixed lower-cased comparison
form). -/
theorem c10_add_admin_no_normalization :
    (∀ sa config msgText, pyStrip msgText ∉ config.admins →
      (process_add_admin (BotState.mk sa (some config)) msgText).stored =
        some { config with
                admins := config.admins ++ [pyStrip msgText] }) ∧
    (∀ sa config msgText h' c',
      pyStartsWith (pyStrip msgText) "@" = false →
      pyLower h' = pyLower (pyStrip msgText) →
      is_admin (some h') config sa = false →
      (process_add_admin (BotState.mk sa (some config)) msgText).stored =
        some c' →
      is_admin (some h') c' sa = false) := by
  constructor
  · intro sa config msgText hmem
    simp only [process_add_admin, load_config, if_neg hmem]
  · intro sa config msgText h' c' hat hcase hbefore hres
    simp only [process_add_admin, load_config] at hres
    split at hres
    · simp only [Option.some.injEq] at hres
      rw [← hres]
      exact hbefore
    · simp only [Option.some.injEq] at hres
      rw [← hres]
      exact is_admin_false_preserved_append hat hcase hbefore

/-- Witness for c10_add_admin_no_normalization: adding "bob" (no sigil) to
an empty admin list leaves is_admin false for "BOB". -/
theorem c10_add_admin_no_normalization_witness :
    is_admin (some "BOB") (Config.mk none [] [] [] ["bob"]) [] = false :=
  c10_add_admin_no_normalization.2 [] (Config.mk none [] [] [] []) "bob"
    "BOB" (Config.mk none [] [] [] ["bob"])
    (by decide) (by decide) (by decide) (by decide)

/-- C9 counterexample: the claim asserts that after the retention check a
day with more than 500 lines holds only the most recent 500 lines, but
clean_old_logs logs the cleanup through log_event after truncating, so a
501-line day ends up holding 501 lines (the most recent 500 plus the new
cleanup entry), not 500. -/
theorem c9_counterexample :
    500 < (splitlines (String.join (List.replicate 501 "x\n"))).length ∧
    (splitlines ((clean_old_logs "2025-01-02 00:00:00"
        "logs/2025-01-02.log"
        (some (String.join (List.replicate 501 "x\n")))).getD "")).length ≠
      500 := by
  constructor
  · decide
  · decide

/-- C9 (amended): the retention check leaves an absent day's unit absent; a
unit with at most 500 lines is left unchanged; and a unit with more than
500 lines is rewritten to the most recent 500 lines (joined by newlines,
newline-terminated) followed by the one cleanup entry that log_event then
appends. -/
theorem c9_retention_truncation :
    (∀ nowStr logKey, clean_old_logs nowStr logKey none = none) ∧
    (∀ nowStr logKey content, (splitlines content).length ≤ 500 →
      clean_old_logs nowStr logKey (some content) = some content) ∧
    (∀ nowStr logKey content, 500 < (splitlines content).length →
      clean_old_logs nowStr logKey (some content) =
        some ((pyJoin "\n" ((splitlines content).drop
            ((splitlines content).length - 500)) ++ "\n") ++
          (nowStr ++ " - " ++
            cleanup_msg logKey (splitlines content).length ++ "\n"))) := by
  refine ⟨fun _ _ => rfl, ?_, ?_⟩
  · intro nowStr logKey content h
    simp only [clean_old_logs, if_neg (Nat.not_lt.mpr h)]
  · intro nowStr logKey content h
    simp only [clean_old_logs, if_pos h, log_event]

/-- Witness for c9_retention_truncation: a two-line day is left unchanged. -/
theorem c9_retention_truncation_witness :
    clean_old_logs "T" "K" (some "a\nb\n") = some "a\nb\n" :=
  c9_retention_truncation.2.1 "T" "K" "a\nb\n" (by decide)

end TgMsgRouter
